/-
Verification of the LegoPortfolioBackend signed-request client, aggregation
orchestrator and bounded-concurrency batch engine.

Go strings are modelled as lists of bytes (`GoStr := List Nat`, each element
< 256), since Go indexes and slices strings by byte and `net/url` escaping
operates on bytes.  String literals are injected through `goStr`, which
performs standard UTF-8 encoding of the code points.

Translated source:
  - internal/api/service (BricklinkService): encodeParameters, signRequest,
    buildAuthHeader, generateOAuthParams, makeRequest, GetMinifigPrice,
    GetMinifigComplete, ToStructuredResponse;
  - internal/repos (BaseRepository): BatchOperation,
    BatchOperationWithResults, ConcurrentFetch;
  - the Go standard library functions the service calls:
    url.QueryEscape / url.Values.Encode, crypto/sha1, crypto/hmac,
    encoding/base64 (StdEncoding).
-/
import Mathlib

set_option maxRecDepth 4096

/-- A Go string: a sequence of bytes (each < 256). -/
abbrev GoStr := List Nat

/-- Standard UTF-8 encoding of one Unicode code point, as byte values. -/
def utf8Bytes (n : Nat) : List Nat :=
  if n < 0x80 then [n]
  else if n < 0x800 then
    [0xC0 + n / 64, 0x80 + n % 64]
  else if n < 0x10000 then
    [0xE0 + n / 4096, 0x80 + (n / 64) % 64, 0x80 + n % 64]
  else
    [0xF0 + n / 0x40000, 0x80 + (n / 4096) % 64, 0x80 + (n / 64) % 64,
      0x80 + n % 64]

/-- The bytes of a Lean string literal, as a Go string (UTF-8, like Go). -/
def goStr (s : String) : GoStr :=
  s.data.flatMap (fun c => utf8Bytes c.toNat)

/-- Bytes left unescaped by Go's `url.QueryEscape`
(`shouldEscape(c, encodeQueryComponent) == false`): ASCII alphanumerics and
`-`, `_`, `.`, `~`. -/
def isUnreservedByte (b : Nat) : Bool :=
  (65 ≤ b && b ≤ 90) || (97 ≤ b && b ≤ 122) || (48 ≤ b && b ≤ 57) ||
    b == 45 || b == 95 || b == 46 || b == 126

/-- Upper-case hexadecimal digit for `n < 16`, as a byte value
(Go `"0123456789ABCDEF"[n]`). -/
def upperHexDigit (n : Nat) : Nat :=
  if n < 10 then 48 + n else 55 + n

/-- Escape of a single byte under Go's `url.QueryEscape`: unreserved bytes
are kept, a space becomes `+`, every other byte becomes `%XX` with
upper-case hex. -/
def escapeByte (b : Nat) : List Nat :=
  if isUnreservedByte b then [b]
  else if b == 32 then [43]
  else [37, upperHexDigit (b / 16), upperHexDigit (b % 16)]

/-- Go's `url.QueryEscape`, byte for byte. -/
def queryEscape (s : GoStr) : GoStr :=
  s.flatMap escapeByte

/-- Value of one hexadecimal digit byte, if it is one. -/
def fromHexDigit (b : Nat) : Option Nat :=
  if 48 ≤ b && b ≤ 57 then some (b - 48)
  else if 65 ≤ b && b ≤ 70 then some (b - 55)
  else if 97 ≤ b && b ≤ 102 then some (b - 87)
  else none

/-- Strict RFC 3986 percent-decoding: `%XX` becomes the byte `XX`, every
other byte (including `+`) stands for itself; malformed escapes fail. -/
def percentDecode : GoStr → Option GoStr
  | [] => some []
  | b :: rest =>
    if b == 37 then
      match rest with
      | h :: l :: rest2 =>
        match fromHexDigit h, fromHexDigit l with
        | some hv, some lv => (percentDecode rest2).map (fun t => (16 * hv + lv) :: t)
        | _, _ => none
      | _ => none
    else (percentDecode rest).map (fun t => b :: t)

/-- Go's `url.QueryUnescape`: like percent-decoding but `+` decodes to a
space, matching the URL-query-component encoding. -/
def queryUnescape : GoStr → Option GoStr
  | [] => some []
  | b :: rest =>
    if b == 37 then
      match rest with
      | h :: l :: rest2 =>
        match fromHexDigit h, fromHexDigit l with
        | some hv, some lv => (queryUnescape rest2).map (fun t => (16 * hv + lv) :: t)
        | _, _ => none
      | _ => none
    else if b == 43 then (queryUnescape rest).map (fun t => 32 :: t)
    else (queryUnescape rest).map (fun t => b :: t)

theorem fromHexDigit_upperHexDigit {n : Nat} (h : n < 16) :
    fromHexDigit (upperHexDigit n) = some n := by
  interval_cases n <;> rfl

theorem isUnreservedByte_ne_percent {b : Nat} (h : isUnreservedByte b = true) :
    b ≠ 37 ∧ b ≠ 43 := by
  constructor <;> rintro rfl <;> simp [isUnreservedByte] at h

/-- Decoding with `url.QueryUnescape` undoes `url.QueryEscape` on any byte
string. -/
theorem queryUnescape_queryEscape (s : GoStr) (hs : ∀ b ∈ s, b < 256) :
    queryUnescape (queryEscape s) = some s := by
  induction s with
  | nil => rfl
  | cons b rest ih =>
    have hb : b < 256 := hs b (List.mem_cons_self b rest)
    have hrest : ∀ x ∈ rest, x < 256 := fun x hx => hs x (List.mem_cons_of_mem b hx)
    have ihr := ih hrest
    show queryUnescape (escapeByte b ++ queryEscape rest) = some (b :: rest)
    unfold escapeByte
    by_cases hu : isUnreservedByte b = true
    · obtain ⟨h37, h43⟩ := isUnreservedByte_ne_percent hu
      simp only [hu, if_pos]
      show queryUnescape (b :: queryEscape rest) = some (b :: rest)
      unfold queryUnescape
      have e37 : (b == 37) = false := by simp [h37]
      have e43 : (b == 43) = false := by simp [h43]
      simp [e37, e43, ihr]
    · by_cases h32 : b = 32
      · subst h32
        simp only [hu]
        show queryUnescape (43 :: queryEscape rest) = some (32 :: rest)
        unfold queryUnescape
        simp [ihr]
      · have e32 : (b == 32) = false := by simp [h32]
        simp only [hu, if_neg, e32, Bool.false_eq_true, if_false]
        show queryUnescape (37 :: upperHexDigit (b / 16) :: upperHexDigit (b % 16)
          :: queryEscape rest) = some (b :: rest)
        unfold queryUnescape
        have hhi : b / 16 < 16 := by omega
        have hlo : b % 16 < 16 := by omega
        simp [fromHexDigit_upperHexDigit hhi, fromHexDigit_upperHexDigit hlo, ihr]
        omega

/-- Go's `sort.Strings`: sorts a string slice in nondecreasing
lexicographic byte order (modelled with insertion sort, which produces the
same, unique, nondecreasing arrangement). -/
def sortStrings (l : List GoStr) : List GoStr :=
  List.insertionSort (fun a b => a ≤ b) l

/-- Go's `url.Values`: a map from keys to slices of values.  A Go map has
no observable insertion order and iterates in an unspecified order; it is
modelled as an association list whose keys are distinct, the list order
standing for one arbitrary iteration order. -/
abbrev Values := List (GoStr × List GoStr)

/-- Distinctness of the keys of an association list (always true of the
lists that model Go maps). -/
abbrev NodupKeys (ps : List (GoStr × List GoStr)) : Prop :=
  (ps.map Prod.fst).Nodup

/-- `params[k]` for a `url.Values`: the value slice stored under `k`
(the empty slice when `k` is absent). -/
def getValues (ps : Values) (k : GoStr) : List GoStr :=
  (List.lookup k ps).getD []

/-- One `key=value` pair of the parameter string, both parts escaped with
`url.QueryEscape` (Go `fmt.Sprintf("%s=%s", ...)`; `61` is `=`). -/
def encodePair (k v : GoStr) : GoStr :=
  queryEscape k ++ [61] ++ queryEscape v

/-- `BricklinkService.encodeParameters`, translated from the source: collect
the keys of the map, sort them with `sort.Strings`, then for each key in
sorted order and each of its values in slice order emit the escaped
`key=value` pair, and join the pairs with `&` (byte `38`).
`url.Values.Encode` of the Go standard library computes the same string by
the same algorithm, so this definition also models `params.Encode()`. -/
def encodeParameters (ps : Values) : GoStr :=
  List.intercalate [38]
    ((sortStrings (ps.map Prod.fst)).flatMap
      (fun k => (getValues ps k).map (fun v => encodePair k v)))

/-- Entries of an association list arranged in nondecreasing key order
(insertion sort is stable, so entries — and hence the values of any one
key — keep their relative order). -/
def sortEntriesByKey (ps : Values) : Values :=
  List.insertionSort (fun p q => p.1 ≤ q.1) ps

/-- The parameter string as the spec words it: all `key=value` pairs listed
with their keys in sorted order (values of a key in original order),
percent-encoded with the URL-query-component encoding, joined with `&`. -/
def specEncodeParameters (ps : Values) : GoStr :=
  List.intercalate [38]
    ((sortEntriesByKey ps).flatMap
      (fun e => e.2.map (fun v => encodePair e.1 v)))

theorem mapFst_orderedInsert (p : GoStr × List GoStr) (l : List (GoStr × List GoStr)) :
    (List.orderedInsert (fun x y => x.1 ≤ y.1) p l).map Prod.fst =
      List.orderedInsert (fun a b => a ≤ b) p.1 (l.map Prod.fst) := by
  induction l with
  | nil => rfl
  | cons q rest ih =>
    show (if p.1 ≤ q.1 then p :: q :: rest
      else q :: List.orderedInsert (fun x y => x.1 ≤ y.1) p rest).map Prod.fst = _
    by_cases h : p.1 ≤ q.1
    · simp [List.orderedInsert, h]
    · simp [List.orderedInsert, h, ih]

theorem mapFst_sortEntriesByKey (ps : Values) :
    (sortEntriesByKey ps).map Prod.fst = sortStrings (ps.map Prod.fst) := by
  induction ps with
  | nil => rfl
  | cons p rest ih =>
    show (List.orderedInsert (fun x y => x.1 ≤ y.1) p
        (List.insertionSort (fun x y => x.1 ≤ y.1) rest)).map Prod.fst = _
    unfold sortEntriesByKey at ih
    rw [mapFst_orderedInsert, ih]
    rfl

theorem lookup_eq_some_of_mem {ps : Values} {e : GoStr × List GoStr}
    (hnd : NodupKeys ps) (he : e ∈ ps) : List.lookup e.1 ps = some e.2 := by
  induction ps with
  | nil => cases he
  | cons p rest ih =>
    rcases List.mem_cons.mp he with rfl | htail
    · simp [List.lookup]
    · have hne : ¬(e.1 == p.1) = true := by
        intro hbeq
        have : e.1 = p.1 := by exact eq_of_beq hbeq
        have hmem : p.1 ∈ rest.map Prod.fst := this ▸ List.mem_map_of_mem Prod.fst htail
        exact (List.nodup_cons.mp hnd).1 hmem
      have hndr : NodupKeys rest := (List.nodup_cons.mp hnd).2
      simp [List.lookup, hne, ih hndr htail]

theorem mem_sortEntriesByKey {ps : Values} {e : GoStr × List GoStr} :
    e ∈ sortEntriesByKey ps ↔ e ∈ ps :=
  List.mem_insertionSort _

theorem flatMap_getValues_eq {ps : Values} (es : List (GoStr × List GoStr))
    (h : ∀ e ∈ es, getValues ps e.1 = e.2) :
    (es.map Prod.fst).flatMap (fun k => (getValues ps k).map (fun v => encodePair k v)) =
      es.flatMap (fun e => e.2.map (fun v => encodePair e.1 v)) := by
  induction es with
  | nil => rfl
  | cons e rest ih =>
    have hhead : getValues ps e.1 = e.2 := h e (List.mem_cons_self e rest)
    have htail : ∀ x ∈ rest, getValues ps x.1 = x.2 :=
      fun x hx => h x (List.mem_cons_of_mem e hx)
    simp only [List.map_cons, List.flatMap_cons, hhead, ih htail]

/-- The two formulations of the parameter string agree on every parameter
map (association list with distinct keys). -/
theorem encodeParameters_eq_spec {ps : Values} (hnd : NodupKeys ps) :
    encodeParameters ps = specEncodeParameters ps := by
  unfold encodeParameters specEncodeParameters
  rw [← mapFst_sortEntriesByKey]
  rw [flatMap_getValues_eq (sortEntriesByKey ps)]
  intro e he
  have hmem : e ∈ ps := mem_sortEntriesByKey.mp he
  unfold getValues
  rw [lookup_eq_some_of_mem hnd hmem]
  rfl

example : encodeParameters
    [(goStr ("b"), [goStr ("2 +"), goStr ("1")]), (goStr ("a"), [goStr ("x&y")])] =
    goStr ("a=x%26y&b=2+%2B&b=1") := by decide

/-- Replacement step of `assocSet` for an existing key. -/
def keyReplace {β : Type} (k : GoStr) (v : β) (e : GoStr × β) : GoStr × β :=
  if e.1 = k then (k, v) else e

/-- Assignment `m[k] = v` on a Go map modelled as an association list: an
existing entry for `k` is replaced in place, a new key is appended.  The
position of an entry is unobservable downstream (every consumer sorts), it
only fixes one concrete iteration order. -/
def assocSet {β : Type} (m : List (GoStr × β)) (k : GoStr) (v : β) :
    List (GoStr × β) :=
  if k ∈ m.map Prod.fst then m.map (keyReplace k v)
  else m ++ [(k, v)]

/-- `url.Values.Set`: stores `[]string{value}` under the key. -/
def valuesSet (ps : Values) (k v : GoStr) : Values :=
  assocSet ps k [v]

/-- The parameter merge of `signRequest`: copy the query parameters, then
`Set` each OAuth parameter (`allParams` in the source). -/
def combineParams (ps : Values) (oauth : List (GoStr × GoStr)) : Values :=
  oauth.foldl (fun acc e => valuesSet acc e.1 e.2) ps

/-- Credentials from `bricklink.BricklinkConfig`. -/
structure BricklinkConfig where
  signatureMethod : GoStr
  consumerKey : GoStr
  consumerSecret : GoStr
  accessToken : GoStr
  accessTokenSecret : GoStr

/-- The signature base string exactly as `signRequest` builds it:
`fmt.Sprintf("%s&%s&%s", url.QueryEscape(method), url.QueryEscape(baseURL),
url.QueryEscape(encodedParams))` (`38` is `&`). -/
def signatureBase (method baseURL : GoStr) (ps : Values)
    (oauth : List (GoStr × GoStr)) : GoStr :=
  queryEscape method ++ [38] ++ queryEscape baseURL ++ [38] ++
    queryEscape (encodeParameters (combineParams ps oauth))

/-- The HMAC signing key of `signRequest`:
`QueryEscape(consumerSecret) & QueryEscape(accessTokenSecret)`. -/
def signingKey (c : BricklinkConfig) : GoStr :=
  queryEscape c.consumerSecret ++ [38] ++ queryEscape c.accessTokenSecret

/-- 2^32, the word modulus of SHA-1. -/
def w32 : Nat := 4294967296

/-- 32-bit left rotation by `k`. -/
def rotl (k n : Nat) : Nat :=
  ((n <<< k) + (n >>> (32 - k))) % w32

/-- SHA-1 round function `f_t`. -/
def sha1F (t b c d : Nat) : Nat :=
  if t < 20 then (b &&& c) ||| ((b ^^^ (w32 - 1)) &&& d)
  else if t < 40 then (b ^^^ c) ^^^ d
  else if t < 60 then ((b &&& c) ||| (b &&& d)) ||| (c &&& d)
  else (b ^^^ c) ^^^ d

/-- SHA-1 round constant `K_t`. -/
def sha1K (t : Nat) : Nat :=
  if t < 20 then 0x5A827999
  else if t < 40 then 0x6ED9EBA1
  else if t < 60 then 0x8F1BBCDC
  else 0xCA62C1D6

/-- Chunking worker, structurally recursive in a fuel argument (one unit of
fuel per chunk; the list length is always enough fuel, since every chunk
consumes at least one element). -/
def chunksOfGo (n : Nat) : Nat → List Nat → List (List Nat)
  | _, [] => []
  | 0, _ :: _ => []
  | fuel + 1, b :: rest =>
    (b :: rest.take (n - 1)) :: chunksOfGo n fuel (rest.drop (n - 1))

/-- Split a byte list into chunks of `n` bytes (the last chunk may be
shorter; with padded SHA-1 input every chunk is full). -/
def chunksOf (n : Nat) (l : List Nat) : List (List Nat) :=
  chunksOfGo n l.length l

/-- Big-endian 8-byte encoding. -/
def be64 (n : Nat) : List Nat :=
  [(n >>> 56) % 256, (n >>> 48) % 256, (n >>> 40) % 256, (n >>> 32) % 256,
    (n >>> 24) % 256, (n >>> 16) % 256, (n >>> 8) % 256, n % 256]

/-- Big-endian 4-byte encoding. -/
def be32 (n : Nat) : List Nat :=
  [(n >>> 24) % 256, (n >>> 16) % 256, (n >>> 8) % 256, n % 256]

/-- Big-endian word from up to four bytes. -/
def toWord (bs : List Nat) : Nat :=
  bs.foldl (fun acc b => acc * 256 + b) 0

/-- SHA-1 message padding: `0x80`, zeros to 56 mod 64, then the bit length
as eight big-endian bytes. -/
def sha1Pad (msg : List Nat) : List Nat :=
  msg ++ [128] ++ List.replicate ((64 + 56 - (msg.length + 1) % 64) % 64) 0 ++
    be64 (8 * msg.length)

/-- The five working registers of SHA-1. -/
structure Sha1State where
  a : Nat
  b : Nat
  c : Nat
  d : Nat
  e : Nat

/-- Expand the 16 words of a block to the 80-word schedule. -/
def sha1Schedule (ws : List Nat) : List Nat :=
  (List.range 64).foldl
    (fun acc i =>
      acc ++ [rotl 1 (((acc.getD (i + 13) 0) ^^^ (acc.getD (i + 8) 0)) ^^^
        ((acc.getD (i + 2) 0) ^^^ (acc.getD i 0)))])
    ws

/-- One SHA-1 round. -/
def sha1Round (ws : List Nat) (st : Sha1State) (t : Nat) : Sha1State :=
  { a := (rotl 5 st.a + sha1F t st.b st.c st.d + st.e + sha1K t + ws.getD t 0) % w32
    b := st.a
    c := rotl 30 st.b
    d := st.c
    e := st.d }

/-- Compress one 64-byte block into the running state. -/
def sha1Block (st : Sha1State) (block : List Nat) : Sha1State :=
  let ws := sha1Schedule ((chunksOf 4 block).map toWord)
  let f := (List.range 80).foldl (sha1Round ws) st
  { a := (st.a + f.a) % w32
    b := (st.b + f.b) % w32
    c := (st.c + f.c) % w32
    d := (st.d + f.d) % w32
    e := (st.e + f.e) % w32 }

/-- SHA-1 initial state. -/
def sha1Init : Sha1State :=
  ⟨0x67452301, 0xEFCDAB89, 0x98BADCFE, 0x10325476, 0xC3D2E1F0⟩

/-- SHA-1 of a byte list (Go `crypto/sha1`), as 20 bytes. -/
def sha1 (msg : List Nat) : List Nat :=
  let fin := (chunksOf 64 (sha1Pad msg)).foldl sha1Block sha1Init
  be32 fin.a ++ be32 fin.b ++ be32 fin.c ++ be32 fin.d ++ be32 fin.e

/-- HMAC-SHA1 (Go `crypto/hmac` with `sha1.New`): block size 64. -/
def hmacSha1 (key msg : List Nat) : List Nat :=
  let k0 := if 64 < key.length then sha1 key else key
  let kp := k0 ++ List.replicate (64 - k0.length) 0
  sha1 ((kp.map (fun b => b ^^^ 92)) ++ sha1 ((kp.map (fun b => b ^^^ 54)) ++ msg))

/-- Byte value of the `n`-th standard base64 alphabet character. -/
def base64Char (n : Nat) : Nat :=
  if n < 26 then 65 + n
  else if n < 52 then 71 + n
  else if n < 62 then n - 4
  else if n = 62 then 43
  else 47

/-- Go `base64.StdEncoding.EncodeToString`, as bytes (61 is `=` padding). -/
def base64Encode : List Nat → List Nat
  | b0 :: b1 :: b2 :: rest =>
    base64Char (b0 / 4) :: base64Char ((b0 % 4) * 16 + b1 / 16) ::
      base64Char ((b1 % 16) * 4 + b2 / 64) :: base64Char (b2 % 64) ::
        base64Encode rest
  | [b0, b1] =>
    [base64Char (b0 / 4), base64Char ((b0 % 4) * 16 + b1 / 16),
      base64Char ((b1 % 16) * 4), 61]
  | [b0] => [base64Char (b0 / 4), base64Char ((b0 % 4) * 16), 61, 61]
  | [] => []

/-- The two values `crypto/rand.Read(nonce)` produces for a 16-byte buffer:
the bytes placed in the buffer and the reported error.  The source discards
both return values of `rand.Read`, so `err` is never consulted. -/
structure RandOutcome where
  bytes : List Nat
  err : Option GoStr

/-- `generateOAuthParams`, translated from the source.  The Go value is a
`map[string]string` literal; the list order here is the literal order and
stands for one arbitrary iteration order of the map. -/
def generateOAuthParams (cred : BricklinkConfig) (rand : RandOutcome)
    (ts : Int) : List (GoStr × GoStr) :=
  [(goStr ("oauth_consumer_key"), cred.consumerKey),
    (goStr ("oauth_token"), cred.accessToken),
    (goStr ("oauth_signature_method"), cred.signatureMethod),
    (goStr ("oauth_timestamp"), goStr (toString ts)),
    (goStr ("oauth_nonce"), base64Encode rand.bytes),
    (goStr ("oauth_version"), goStr ("1.0"))]

/-- One `key="value"` pair of the Authorization header
(Go ``fmt.Sprintf(`%s="%s"`, QueryEscape(k), QueryEscape(v))``;
61 is `=`, 34 is `"`). -/
def authPair (k v : GoStr) : GoStr :=
  queryEscape k ++ [61, 34] ++ queryEscape v ++ [34]

/-- `buildAuthHeader`, translated from the source: format every OAuth
parameter as `key="value"`, sort the formatted strings with `sort.Strings`,
join them with `", "` and prepend `"OAuth "`. -/
def buildAuthHeader (os : List (GoStr × GoStr)) : GoStr :=
  goStr ("OAuth ") ++ List.intercalate (goStr (", "))
    (sortStrings (os.map (fun e => authPair e.1 e.2)))

/-- The base64 HMAC-SHA1 signature value computed by `signRequest`. -/
def oauthSignature (cred : BricklinkConfig) (method baseURL : GoStr)
    (ps : Values) (oauth : List (GoStr × GoStr)) : GoStr :=
  base64Encode (hmacSha1 (signingKey cred) (signatureBase method baseURL ps oauth))

/-- The OAuth parameter map after `signRequest` stores
`oauthParams["oauth_signature"]`. -/
def signedOauthParams (cred : BricklinkConfig) (method baseURL : GoStr)
    (ps : Values) (oauth : List (GoStr × GoStr)) : List (GoStr × GoStr) :=
  assocSet oauth (goStr ("oauth_signature")) (oauthSignature cred method baseURL ps oauth)

/-- The URL `signRequest` returns: `baseURL?params.Encode()` when the query
parameter map is non-empty, plain `baseURL` otherwise (63 is `?`). -/
def signedURL (baseURL : GoStr) (ps : Values) : GoStr :=
  if ps ≠ [] then baseURL ++ [63] ++ encodeParameters ps else baseURL

/-- `signRequest`, translated from the source: computes the signature,
stores it in the OAuth parameter map, and returns the final URL together
with a `nil` error (both `return` statements of the source carry `nil`). -/
def signRequest (cred : BricklinkConfig) (method baseURL : GoStr)
    (ps : Values) (oauth : List (GoStr × GoStr)) :
    Except GoStr GoStr × List (GoStr × GoStr) :=
  (Except.ok (signedURL baseURL ps), signedOauthParams cred method baseURL ps oauth)

/-- The signing phase of `makeRequest`: `generateOAuthParams` followed by
`signRequest`, returning the `(signedURL, err)` pair of the source. -/
def signingOperation (cred : BricklinkConfig) (method fullURL : GoStr)
    (ps : Values) (rand : RandOutcome) (ts : Int) : Except GoStr GoStr :=
  (signRequest cred method fullURL ps (generateOAuthParams cred rand ts)).1

/-- ASCII upper-casing of a byte string. -/
def upperStr (s : GoStr) : GoStr :=
  s.map (fun b => if 97 ≤ b && b ≤ 122 then b - 32 else b)

/-- The signature base string as the claim words it: `UPPER(method)`,
percent-encoded base URL and percent-encoded (already once-encoded)
parameter string, joined with literal `&`. -/
def specSignatureBaseClaimed (method baseURL : GoStr) (ps : Values)
    (oauth : List (GoStr × GoStr)) : GoStr :=
  List.intercalate [38]
    [upperStr method, queryEscape baseURL,
      queryEscape (specEncodeParameters (combineParams ps oauth))]

/-- The amended claim: the method segment is percent-encoded as given
(not uppercased); the other two segments as in the claim. -/
def specSignatureBaseAmended (method baseURL : GoStr) (ps : Values)
    (oauth : List (GoStr × GoStr)) : GoStr :=
  List.intercalate [38]
    [queryEscape method, queryEscape baseURL,
      queryEscape (specEncodeParameters (combineParams ps oauth))]

example : sha1 [] =
    [0xda, 0x39, 0xa3, 0xee, 0x5e, 0x6b, 0x4b, 0x0d, 0x32, 0x55,
      0xbf, 0xef, 0x95, 0x60, 0x18, 0x90, 0xaf, 0xd8, 0x07, 0x09] := by decide

example : base64Encode (goStr ("any carnal pleasu")) =
    goStr ("YW55IGNhcm5hbCBwbGVhc3U=") := by decide

theorem sortStrings_perm_eq {l l' : List GoStr} (h : l.Perm l') :
    sortStrings l = sortStrings l' :=
  List.eq_of_perm_of_sorted
    ((List.perm_insertionSort _ l).trans (h.trans (List.perm_insertionSort _ l').symm))
    (List.sorted_insertionSort _ l) (List.sorted_insertionSort _ l')

theorem mem_of_lookup_eq_some {ps : Values} {k : GoStr} {v : List GoStr}
    (h : List.lookup k ps = some v) : (k, v) ∈ ps := by
  obtain ⟨l1, l2, rfl, -⟩ := List.lookup_eq_some_iff.mp h
  exact List.mem_append.mpr (Or.inr (List.mem_cons_self _ _))

theorem lookup_perm {ps qs : Values} (h : ps.Perm qs) (hnd : NodupKeys ps)
    (k : GoStr) : List.lookup k ps = List.lookup k qs := by
  have hndq : NodupKeys qs := ((h.map Prod.fst).nodup_iff).mp hnd
  cases hc : List.lookup k ps with
  | some v =>
    have hmem : (k, v) ∈ qs := h.mem_iff.mp (mem_of_lookup_eq_some hc)
    exact (lookup_eq_some_of_mem hndq hmem).symm
  | none =>
    have hall := List.lookup_eq_none_iff.mp hc
    exact (List.lookup_eq_none_iff.mpr (fun p hp => hall p (h.mem_iff.mpr hp))).symm

theorem encodeParameters_ext {ps qs : Values}
    (hk : sortStrings (ps.map Prod.fst) = sortStrings (qs.map Prod.fst))
    (hv : ∀ k, getValues ps k = getValues qs k) :
    encodeParameters ps = encodeParameters qs := by
  unfold encodeParameters
  rw [hk]
  simp only [hv]

/-- The parameter string depends only on the contents of the parameter map,
not on the iteration order of its entries. -/
theorem encodeParameters_perm {ps qs : Values} (h : ps.Perm qs)
    (hnd : NodupKeys ps) : encodeParameters ps = encodeParameters qs := by
  refine encodeParameters_ext (sortStrings_perm_eq (h.map Prod.fst)) (fun k => ?_)
  unfold getValues
  rw [lookup_perm h hnd k]

theorem fst_keyReplace {β : Type} (k : GoStr) (v : β) (e : GoStr × β) :
    (keyReplace k v e).1 = e.1 := by
  unfold keyReplace
  by_cases h : e.1 = k <;> simp [h]

theorem keyReplace_comm {β : Type} {k j : GoStr} (hne : k ≠ j) (v w : β)
    (e : GoStr × β) :
    keyReplace j w (keyReplace k v e) = keyReplace k v (keyReplace j w e) := by
  unfold keyReplace
  by_cases hk : e.1 = k
  · have hj : e.1 ≠ j := fun hh => hne (hk ▸ hh ▸ rfl)
    simp [hk, hj, hne, Ne.symm hne]
  · by_cases hj : e.1 = j
    · simp [hk, hj, hne, Ne.symm hne]
    · simp [hk, hj]

theorem assocSet_of_mem {β : Type} {m : List (GoStr × β)} {k : GoStr} (v : β)
    (h : k ∈ m.map Prod.fst) : assocSet m k v = m.map (keyReplace k v) := by
  unfold assocSet
  rw [if_pos h]

theorem assocSet_of_not_mem {β : Type} {m : List (GoStr × β)} {k : GoStr} (v : β)
    (h : k ∉ m.map Prod.fst) : assocSet m k v = m ++ [(k, v)] := by
  unfold assocSet
  rw [if_neg h]

theorem keys_assocSet_of_mem {β : Type} {m : List (GoStr × β)} {k : GoStr} (v : β)
    (h : k ∈ m.map Prod.fst) : (assocSet m k v).map Prod.fst = m.map Prod.fst := by
  rw [assocSet_of_mem v h, List.map_map]
  exact List.map_congr_left (fun e _ => fst_keyReplace k v e)

theorem keys_assocSet_of_not_mem {β : Type} {m : List (GoStr × β)} {k : GoStr} (v : β)
    (h : k ∉ m.map Prod.fst) :
    (assocSet m k v).map Prod.fst = m.map Prod.fst ++ [k] := by
  rw [assocSet_of_not_mem v h, List.map_append]
  rfl

theorem assocSet_nodupKeys {β : Type} {m : List (GoStr × β)} {k : GoStr} {v : β}
    (hnd : (m.map Prod.fst).Nodup) : ((assocSet m k v).map Prod.fst).Nodup := by
  by_cases h : k ∈ m.map Prod.fst
  · rw [keys_assocSet_of_mem v h]
    exact hnd
  · rw [keys_assocSet_of_not_mem v h]
    exact ((List.perm_append_singleton k _).nodup_iff).mpr (List.nodup_cons.mpr ⟨h, hnd⟩)

theorem assocSet_perm_left {β : Type} {m mm : List (GoStr × β)} (h : m.Perm mm)
    (k : GoStr) (v : β) : (assocSet m k v).Perm (assocSet mm k v) := by
  by_cases hm : k ∈ m.map Prod.fst
  · have hm2 : k ∈ mm.map Prod.fst := (h.map Prod.fst).mem_iff.mp hm
    rw [assocSet_of_mem v hm, assocSet_of_mem v hm2]
    exact h.map _
  · have hm2 : k ∉ mm.map Prod.fst := fun hh => hm ((h.map Prod.fst).mem_iff.mpr hh)
    rw [assocSet_of_not_mem v hm, assocSet_of_not_mem v hm2]
    exact h.append_right _

theorem assocSet_comm_aux {β : Type} {m : List (GoStr × β)} {k j : GoStr}
    (hne : k ≠ j) (v w : β) (hk : k ∈ m.map Prod.fst) (hj : j ∉ m.map Prod.fst) :
    assocSet (assocSet m k v) j w = assocSet (assocSet m j w) k v := by
  have k1 : j ∉ (assocSet m k v).map Prod.fst := by
    rw [keys_assocSet_of_mem v hk]
    exact hj
  have k2 : k ∈ (assocSet m j w).map Prod.fst := by
    rw [keys_assocSet_of_not_mem w hj]
    exact List.mem_append.mpr (Or.inl hk)
  rw [assocSet_of_not_mem w k1, assocSet_of_mem v k2, assocSet_of_mem v hk,
    assocSet_of_not_mem w hj, List.map_append]
  congr 1
  simp [keyReplace, Ne.symm hne]

/-- Two `Set` operations on distinct keys commute up to entry order. -/
theorem assocSet_comm {β : Type} {m : List (GoStr × β)} {k j : GoStr}
    (hne : k ≠ j) (v w : β) :
    (assocSet (assocSet m k v) j w).Perm (assocSet (assocSet m j w) k v) := by
  by_cases hk : k ∈ m.map Prod.fst <;> by_cases hj : j ∈ m.map Prod.fst
  · have k1 : j ∈ (assocSet m k v).map Prod.fst := by
      rw [keys_assocSet_of_mem v hk]
      exact hj
    have k2 : k ∈ (assocSet m j w).map Prod.fst := by
      rw [keys_assocSet_of_mem w hj]
      exact hk
    rw [assocSet_of_mem w k1, assocSet_of_mem v k2, assocSet_of_mem v hk,
      assocSet_of_mem w hj, List.map_map, List.map_map]
    have heq : m.map (keyReplace j w ∘ keyReplace k v) =
        m.map (keyReplace k v ∘ keyReplace j w) :=
      List.map_congr_left (fun e _ => keyReplace_comm hne v w e)
    rw [heq]
  · rw [assocSet_comm_aux hne v w hk hj]
  · rw [assocSet_comm_aux (Ne.symm hne) w v hj hk]
  · have k1 : j ∉ (assocSet m k v).map Prod.fst := by
      rw [keys_assocSet_of_not_mem v hk]
      intro hh
      rcases List.mem_append.mp hh with h1 | h1
      · exact hj h1
      · exact hne (List.mem_singleton.mp h1).symm
    have k2 : k ∉ (assocSet m j w).map Prod.fst := by
      rw [keys_assocSet_of_not_mem w hj]
      intro hh
      rcases List.mem_append.mp hh with h1 | h1
      · exact hk h1
      · exact hne (List.mem_singleton.mp h1)
    rw [assocSet_of_not_mem w k1, assocSet_of_not_mem v k2, assocSet_of_not_mem v hk,
      assocSet_of_not_mem w hj, List.append_assoc, List.append_assoc]
    exact List.Perm.append_left m (List.Perm.swap _ _ _)

theorem combineParams_cons (ps : Values) (e : GoStr × GoStr)
    (os : List (GoStr × GoStr)) :
    combineParams ps (e :: os) = combineParams (valuesSet ps e.1 e.2) os := rfl

theorem combineParams_perm_acc {ps qs : Values} (h : ps.Perm qs)
    (os : List (GoStr × GoStr)) : (combineParams ps os).Perm (combineParams qs os) := by
  induction os generalizing ps qs with
  | nil => exact h
  | cons e rest ih =>
    rw [combineParams_cons, combineParams_cons]
    exact ih (assocSet_perm_left h e.1 [e.2])

/-- Merging the OAuth parameters in any iteration order of the map yields
the same parameter collection up to entry order. -/
theorem combineParams_perm_right {os os2 : List (GoStr × GoStr)} (h : os.Perm os2) :
    (os.map Prod.fst).Nodup → ∀ ps : Values,
      (combineParams ps os).Perm (combineParams ps os2) := by
  induction h with
  | nil => exact fun _ _ => List.Perm.refl _
  | cons x hrest ih =>
    intro hnd ps
    rw [combineParams_cons, combineParams_cons]
    exact ih (List.nodup_cons.mp hnd).2 _
  | swap x y l =>
    intro hnd ps
    have hne : y.1 ≠ x.1 := by
      have := (List.nodup_cons.mp hnd).1
      intro hh
      exact this (hh ▸ List.mem_cons_self _ _)
    rw [combineParams_cons, combineParams_cons, combineParams_cons, combineParams_cons]
    exact combineParams_perm_acc (assocSet_comm hne [y.2] [x.2]) l
  | trans h1 h2 ih1 ih2 =>
    intro hnd ps
    have hnd2 := ((h1.map Prod.fst).nodup_iff).mp hnd
    exact (ih1 hnd ps).trans (ih2 hnd2 ps)

theorem combineParams_nodupKeys {ps : Values} (os : List (GoStr × GoStr))
    (hnd : NodupKeys ps) : NodupKeys (combineParams ps os) := by
  induction os generalizing ps with
  | nil => exact hnd
  | cons e rest ih =>
    rw [combineParams_cons]
    exact ih (assocSet_nodupKeys hnd)

/-- The Authorization header depends only on the contents of the OAuth
parameter map, not on the iteration order of its entries. -/
theorem buildAuthHeader_perm {os os2 : List (GoStr × GoStr)} (h : os.Perm os2) :
    buildAuthHeader os = buildAuthHeader os2 := by
  unfold buildAuthHeader
  rw [sortStrings_perm_eq (h.map _)]

/-- The Authorization header value `makeRequest` sends: `buildAuthHeader`
applied to the OAuth parameter map after `signRequest` stored the
signature in it. -/
def authorizationHeader (cred : BricklinkConfig) (method fullURL : GoStr)
    (ps : Values) (oauth : List (GoStr × GoStr)) : GoStr :=
  buildAuthHeader (signRequest cred method fullURL ps oauth).2

theorem generateOAuthParams_nodupKeys (cred : BricklinkConfig)
    (rand : RandOutcome) (ts : Int) :
    ((generateOAuthParams cred rand ts).map Prod.fst).Nodup := by
  have h : (generateOAuthParams cred rand ts).map Prod.fst =
      [goStr ("oauth_consumer_key"), goStr ("oauth_token"),
        goStr ("oauth_signature_method"), goStr ("oauth_timestamp"),
        goStr ("oauth_nonce"), goStr ("oauth_version")] := rfl
  rw [h]
  decide

/-- C1: For every parameter collection given to the signer, the parameter
string is built by sorting all parameter keys lexicographically, preserving
the relative order of values for multi-valued keys, percent-encoding every
key and value with the URL-query-component encoding, and joining the
encoded `key=value` pairs with `&` — i.e. `encodeParameters` agrees with
the spec-side formulation `specEncodeParameters`. -/
theorem c1_parameter_string_construction (ps : Values) (hnd : NodupKeys ps) :
    encodeParameters ps = specEncodeParameters ps :=
  encodeParameters_eq_spec hnd

/-- Witness for C1 at a concrete map with a multi-valued key. -/
theorem c1_parameter_string_construction_witness :
    NodupKeys [(goStr ("b"), [goStr ("2"), goStr ("1")]), (goStr ("a"), [goStr ("x y")])] ∧
      encodeParameters
          [(goStr ("b"), [goStr ("2"), goStr ("1")]), (goStr ("a"), [goStr ("x y")])] =
        specEncodeParameters
          [(goStr ("b"), [goStr ("2"), goStr ("1")]), (goStr ("a"), [goStr ("x y")])] :=
  ⟨by decide, c1_parameter_string_construction _ (by decide)⟩

/-- C2 counterexample: for the method string `"get"` the signature base
string built by `signRequest` starts with the percent-encoded method as
given, not with the uppercased method required by the claim, so the two
differ. -/
theorem c2_signature_base_counterexample :
    signatureBase (goStr ("get")) (goStr ("http://x")) [] [] ≠
      specSignatureBaseClaimed (goStr ("get")) (goStr ("http://x")) [] [] := by
  decide

theorem intercalate_three (s a b c : GoStr) :
    List.intercalate s [a, b, c] = a ++ s ++ (b ++ (s ++ c)) := by
  simp [List.intercalate, List.intersperse]

/-- C2 amended: the signature base string equals the percent-encoded method
string as given (no uppercasing is applied; every caller passes the
already-uppercase `"GET"`), the percent-encoded base URL and the
percent-encoded parameter string — the last double-encoded — joined by
literal `&` separators. -/
theorem c2_signature_base_construction (method baseURL : GoStr) (ps : Values)
    (os : List (GoStr × GoStr)) (hps : NodupKeys ps) :
    signatureBase method baseURL ps os = specSignatureBaseAmended method baseURL ps os := by
  unfold signatureBase specSignatureBaseAmended
  rw [← encodeParameters_eq_spec (combineParams_nodupKeys os hps), intercalate_three]
  simp [List.append_assoc]

/-- Witness for C2 (amended) at concrete inputs. -/
theorem c2_signature_base_construction_witness :
    NodupKeys [(goStr ("q"), [goStr ("v")])] ∧
      signatureBase (goStr ("GET")) (goStr ("http://x")) [(goStr ("q"), [goStr ("v")])]
          [(goStr ("oauth_nonce"), goStr ("n"))] =
        specSignatureBaseAmended (goStr ("GET")) (goStr ("http://x"))
          [(goStr ("q"), [goStr ("v")])] [(goStr ("oauth_nonce"), goStr ("n"))] :=
  ⟨by decide, c2_signature_base_construction _ _ _ _ (by decide)⟩

/-- C3: the signing pipeline is deterministic: with the nonce and timestamp
fixed, its Authorization header does not depend on the run — in particular
not on the iteration orders of the two Go maps involved (the query
parameter map and the OAuth parameter map), which are the only sources of
run-to-run variation once nonce and timestamp are injected.  Two runs that
see the maps in any orders produce byte-identical headers. -/
theorem c3_sign_deterministic (cred : BricklinkConfig) (method fullURL : GoStr)
    (ps qs : Values) (rand : RandOutcome) (ts : Int) (os : List (GoStr × GoStr))
    (hps : NodupKeys ps) (hq : qs.Perm ps)
    (ho : os.Perm (generateOAuthParams cred rand ts)) :
    authorizationHeader cred method fullURL qs os =
      authorizationHeader cred method fullURL ps (generateOAuthParams cred rand ts) := by
  have hndq : NodupKeys qs := ((hq.map Prod.fst).nodup_iff).mpr hps
  have hgen := generateOAuthParams_nodupKeys cred rand ts
  have hos : (os.map Prod.fst).Nodup := ((ho.map Prod.fst).nodup_iff).mpr hgen
  have hcomb : (combineParams qs os).Perm
      (combineParams ps (generateOAuthParams cred rand ts)) :=
    (combineParams_perm_right ho hos qs).trans
      (combineParams_perm_acc hq (generateOAuthParams cred rand ts))
  have henc : encodeParameters (combineParams qs os) =
      encodeParameters (combineParams ps (generateOAuthParams cred rand ts)) :=
    encodeParameters_perm hcomb (combineParams_nodupKeys os hndq)
  have hsig : oauthSignature cred method fullURL qs os =
      oauthSignature cred method fullURL ps (generateOAuthParams cred rand ts) := by
    unfold oauthSignature signatureBase
    rw [henc]
  show buildAuthHeader (signedOauthParams cred method fullURL qs os) =
    buildAuthHeader (signedOauthParams cred method fullURL ps
      (generateOAuthParams cred rand ts))
  unfold signedOauthParams
  rw [hsig]
  exact buildAuthHeader_perm (assocSet_perm_left ho _ _)

/-- Concrete credentials used by witnesses. -/
def credEx : BricklinkConfig :=
  ⟨goStr ("HMAC-SHA1"), goStr ("ck"), goStr ("cs"), goStr ("at"), goStr ("ats")⟩

/-- A concrete randomness outcome whose error report is ignored by the
source. -/
def randEx : RandOutcome :=
  ⟨List.replicate 16 65, none⟩

/-- Witness for C3: the two map orders are reversals of each other. -/
theorem c3_sign_deterministic_witness :
    NodupKeys [(goStr ("a"), [goStr ("1")]), (goStr ("b"), [goStr ("2")])] ∧
      authorizationHeader credEx (goStr ("GET")) (goStr ("http://x"))
          [(goStr ("b"), [goStr ("2")]), (goStr ("a"), [goStr ("1")])]
          (generateOAuthParams credEx randEx 7).reverse =
        authorizationHeader credEx (goStr ("GET")) (goStr ("http://x"))
          [(goStr ("a"), [goStr ("1")]), (goStr ("b"), [goStr ("2")])]
          (generateOAuthParams credEx randEx 7) :=
  ⟨by decide, c3_sign_deterministic credEx (goStr ("GET")) (goStr ("http://x"))
    _ _ randEx 7 _ (by decide) (by decide) (by decide)⟩

/-- C4 counterexample: the signer encodes a space as `+`; strict standard
percent-decoding leaves `+` alone, so a value containing a space does not
round-trip through encode-then-percent-decode. -/
theorem c4_percent_roundtrip_counterexample :
    percentDecode (queryEscape (goStr (" "))) ≠ some (goStr (" ")) := by
  decide

/-- C4 amended: with the URL-query-component decoding (which maps `+` back
to a space — the decoding a remote applies to query strings), encoding then
decoding recovers every original parameter value, in particular values
containing `&`, `=`, a space, or UTF-8 multi-byte characters. -/
theorem c4_encoding_roundtrip (s : GoStr) (hs : ∀ b ∈ s, b < 256) :
    queryUnescape (queryEscape s) = some s :=
  queryUnescape_queryEscape s hs

/-- Witness for C4 (amended) on a value containing `&`, `=`, a space and a
two-byte UTF-8 character. -/
theorem c4_encoding_roundtrip_witness :
    (∀ b ∈ goStr ("a&b=c é"), b < 256) ∧
      queryUnescape (queryEscape (goStr ("a&b=c é"))) = some (goStr ("a&b=c é")) :=
  ⟨by decide, c4_encoding_roundtrip _ (by decide)⟩

/-- A concrete randomness outcome that reports a failure; the source
ignores it. -/
def randFailEx : RandOutcome :=
  ⟨List.replicate 16 65, some (goStr ("entropy pool unavailable"))⟩

/-- C5 counterexample: when random nonce generation fails, the signing
operation still succeeds — the source discards the error returned by
`rand.Read`, so signing does not fail exactly when randomness fails. -/
theorem c5_sign_rand_failure_counterexample :
    randFailEx.err ≠ none ∧
      (signingOperation credEx (goStr ("GET")) (goStr ("http://x")) [] randFailEx 0).isOk =
        true := by
  constructor
  · intro h
    simp [randFailEx] at h
  · rfl

/-- C5 amended: the signing operation never returns a non-nil error: both
return paths of `signRequest` carry `nil`, and the error reported by
`rand.Read` is discarded by `generateOAuthParams`.  In particular signing
succeeds for an empty query-parameter collection and even when randomness
generation fails. -/
theorem c5_signing_never_fails (cred : BricklinkConfig) (method fullURL : GoStr)
    (ps : Values) (rand : RandOutcome) (ts : Int) :
    (signingOperation cred method fullURL ps rand ts).isOk = true := rfl

/-- An outbound HTTP request as `makeRequest` constructs it. -/
structure HttpRequest where
  method : GoStr
  url : GoStr
  headers : List (GoStr × GoStr)
deriving DecidableEq

/-- Outcome of handing a request to the transport (`httpClient.Do` plus
reading the body): a transport error, or a status code with a body.
Failures of `http.NewRequestWithContext` and of `io.ReadAll` are folded
into the failure case — like `Do` errors they abort `makeRequest` with a
wrapped error before the status check. -/
inductive TransportResult where
  | fail (e : GoStr)
  | resp (status : Nat) (body : GoStr)
deriving DecidableEq

/-- The error cases of `makeRequest`, one per `return fmt.Errorf(...)`
site that can fire. -/
inductive ReqError where
  | signFailed (e : GoStr)
  | transportFailed (e : GoStr)
  | apiError (status : Nat) (body : GoStr)
  | decodeFailed (body : GoStr)
deriving DecidableEq

/-- The `{meta, data}` JSON envelope every Bricklink response uses. -/
structure BricklinkMeta where
  description : GoStr
  message : GoStr
  code : Int
deriving DecidableEq

structure BricklinkResponse (T : Type) where
  meta : BricklinkMeta
  data : T
deriving DecidableEq

/-- The request `makeRequest` issues: the signed URL, the Authorization
header produced by the signer, and the JSON content type. -/
def makeRequestReq (cred : BricklinkConfig) (baseURL method endpoint : GoStr)
    (ps : Values) (rand : RandOutcome) (ts : Int) : HttpRequest :=
  { method := method
    url := signedURL (baseURL ++ endpoint) ps
    headers :=
      [(goStr ("Authorization"),
          authorizationHeader cred method (baseURL ++ endpoint) ps
            (generateOAuthParams cred rand ts)),
        (goStr ("Content-Type"), goStr ("application/json"))] }

/-- `makeRequest`, translated from the source: substitute an empty map for
`nil` parameters, sign, issue the request through the transport, reject any
status other than 200 with an error carrying status and body, and decode
the body (`decode` stands for `json.Unmarshal` into the typed envelope). -/
def makeRequest {α : Type} (cred : BricklinkConfig) (baseURL method endpoint : GoStr)
    (params : Option Values) (rand : RandOutcome) (ts : Int)
    (transport : HttpRequest → TransportResult)
    (decode : GoStr → Option α) : Except ReqError α :=
  let ps := params.getD []
  match (signRequest cred method (baseURL ++ endpoint) ps
      (generateOAuthParams cred rand ts)).1 with
  | .error e => .error (.signFailed (goStr ("failed to sign request: ") ++ e))
  | .ok _ =>
    match transport (makeRequestReq cred baseURL method endpoint ps rand ts) with
    | .fail e => .error (.transportFailed (goStr ("request failed: ") ++ e))
    | .resp status body =>
      if status ≠ 200 then .error (.apiError status body)
      else
        match decode body with
        | none => .error (.decodeFailed body)
        | some a => .ok a

structure PriceItem where
  no : GoStr
  type : GoStr
deriving DecidableEq

structure PriceDetail where
  quantity : Int
  unitPrice : GoStr
  shippingAvailable : Bool
deriving DecidableEq

structure MinifigPrice where
  item : PriceItem
  newOrUsed : GoStr
  currencyCode : GoStr
  minPrice : GoStr
  maxPrice : GoStr
  avgPrice : GoStr
  qtyAvgPrice : GoStr
  unitQuantity : Int
  totalQuantity : Int
  priceDetail : List PriceDetail
deriving DecidableEq

structure MinifigInfo where
  no : GoStr
  name : GoStr
  type : GoStr
  categoryID : Int
  imageURL : GoStr
  thumbnailURL : GoStr
  weight : GoStr
  dimX : GoStr
  dimY : GoStr
  dimZ : GoStr
  yearReleased : Int
  isObsolete : Bool
deriving DecidableEq

structure SubsetItem where
  no : GoStr
  name : GoStr
  type : GoStr
  categoryID : Int
deriving DecidableEq

structure SubsetEntry where
  item : SubsetItem
  colorID : Int
  quantity : Int
  extraQuantity : Int
  isAlternate : Bool
  isCounterpart : Bool
deriving DecidableEq

structure SubsetGroup where
  matchNo : Int
  entries : List SubsetEntry
deriving DecidableEq

abbrev MinifigSubsets := List SubsetGroup

/-- `MinifigComplete`: the Go struct holds pointers for `Info` and `Price`
(`nil` when never assigned), modelled with `Option`; the
`map[string]int64` of timings is an association list. -/
structure MinifigComplete where
  info : Option MinifigInfo
  subsets : MinifigSubsets
  price : Option MinifigPrice
  fetchTimeMs : Int
  individualFetchTimeMs : List (GoStr × Int)
deriving DecidableEq

/-- The query parameters of the price endpoint, built with two `Set` calls
as in the source. -/
def minifigPriceParams : Values :=
  valuesSet (valuesSet [] (goStr ("new_or_used")) (goStr ("N")))
    (goStr ("currency_code")) (goStr ("USD"))

def minifigPriceEndpoint (id : GoStr) : GoStr :=
  goStr ("/items/MINIFIG/") ++ id ++ goStr ("/price")

/-- The request issued by `GetMinifigPrice`. -/
def minifigPriceRequest (cred : BricklinkConfig) (baseURL id : GoStr)
    (rand : RandOutcome) (ts : Int) : HttpRequest :=
  makeRequestReq cred baseURL (goStr ("GET")) (minifigPriceEndpoint id)
    minifigPriceParams rand ts

/-- `GetMinifigPrice`, translated from the source: a GET of the price
endpoint with the two fixed query parameters, returning the `data` field of
the decoded envelope. -/
def getMinifigPrice (cred : BricklinkConfig) (baseURL id : GoStr)
    (rand : RandOutcome) (ts : Int) (transport : HttpRequest → TransportResult)
    (decode : GoStr → Option (BricklinkResponse MinifigPrice)) :
    Except ReqError MinifigPrice :=
  (makeRequest cred baseURL (goStr ("GET")) (minifigPriceEndpoint id)
    (some minifigPriceParams) rand ts transport decode).map (fun r => r.data)

/-- C9: the price sub-fetch issues a GET whose URL is
`{baseURL}/items/MINIFIG/{id}/price` with exactly the query parameters
`currency_code=USD` and `new_or_used=N`, carries an Authorization header
built by the signer that begins with `"OAuth "` plus a
`Content-Type: application/json` header, and succeeds exactly on HTTP 200
with a body that decodes as the `{meta, data}` envelope. -/
theorem c9_price_request_contract (cred : BricklinkConfig) (baseURL id : GoStr)
    (rand : RandOutcome) (ts : Int) (transport : HttpRequest → TransportResult)
    (decode : GoStr → Option (BricklinkResponse MinifigPrice)) :
    (minifigPriceRequest cred baseURL id rand ts).method = goStr ("GET") ∧
    (minifigPriceRequest cred baseURL id rand ts).url =
      baseURL ++ goStr ("/items/MINIFIG/") ++ id ++
        goStr ("/price?currency_code=USD&new_or_used=N") ∧
    (minifigPriceRequest cred baseURL id rand ts).headers =
      [(goStr ("Authorization"),
          authorizationHeader cred (goStr ("GET")) (baseURL ++ minifigPriceEndpoint id)
            minifigPriceParams (generateOAuthParams cred rand ts)),
        (goStr ("Content-Type"), goStr ("application/json"))] ∧
    (authorizationHeader cred (goStr ("GET")) (baseURL ++ minifigPriceEndpoint id)
        minifigPriceParams (generateOAuthParams cred rand ts)).take 6 =
      goStr ("OAuth ") ∧
    ((getMinifigPrice cred baseURL id rand ts transport decode).isOk = true ↔
      ∃ body env,
        transport (minifigPriceRequest cred baseURL id rand ts) = .resp 200 body ∧
          decode body = some env) := by
  refine ⟨rfl, ?_, rfl, rfl, ?_⟩
  · show signedURL (baseURL ++ minifigPriceEndpoint id) minifigPriceParams = _
    unfold signedURL
    rw [if_pos (by decide : minifigPriceParams ≠ [])]
    have henc : encodeParameters minifigPriceParams =
        goStr ("currency_code=USD&new_or_used=N") := by decide
    have hsplit : goStr ("/price?currency_code=USD&new_or_used=N") =
        goStr ("/price") ++ [63] ++ goStr ("currency_code=USD&new_or_used=N") := by
      decide
    rw [henc, hsplit]
    unfold minifigPriceEndpoint
    simp [List.append_assoc]
  · have hsr : (signRequest cred (goStr ("GET")) (baseURL ++ minifigPriceEndpoint id)
        minifigPriceParams (generateOAuthParams cred rand ts)).1 =
        Except.ok (signedURL (baseURL ++ minifigPriceEndpoint id) minifigPriceParams) := rfl
    cases htr : transport (minifigPriceRequest cred baseURL id rand ts) with
    | fail e =>
      simp only [getMinifigPrice, makeRequest, minifigPriceRequest, Option.getD] at htr ⊢
      rw [htr, hsr]
      simp only [Except.map]
      simp [Except.isOk, Except.toBool]
    | resp status body =>
      simp only [getMinifigPrice, makeRequest, minifigPriceRequest, Option.getD] at htr ⊢
      rw [htr, hsr]
      by_cases hs : status = 200
      · subst hs
        cases hd : decode body with
        | none =>
          simp only [hd, if_neg (by omega : ¬(200 : Nat) ≠ 200)]
          simp [Except.map, Except.isOk, Except.toBool]
          intro x h2
          rw [hd] at h2
          exact Option.noConfusion h2
        | some env =>
          simp only [if_neg (by omega : ¬(200 : Nat) ≠ 200), hd]
          constructor
          · intro _
            exact ⟨body, env, rfl, hd⟩
          · intro _
            rfl
      · simp only [if_pos hs]
        constructor
        · intro hh
          simp [Except.map, Except.isOk, Except.toBool] at hh
        · rintro ⟨body2, env, heq, -⟩
          cases heq
          exact absurd rfl hs

/-- The error one of the three fetch goroutines of `GetMinifigComplete`
hands to the errgroup, wrapped per goroutine as
`fmt.Errorf("failed to fetch minifig info/subsets/price: %w", err)`. -/
inductive WrappedError where
  | infoErr (e : ReqError)
  | subsetsErr (e : ReqError)
  | priceErr (e : ReqError)
deriving DecidableEq

/-- Return value of goroutine `i` of `GetMinifigComplete` (0 = info,
1 = subsets, 2 = price): `some` a wrapped error when its fetch failed,
`none` when it succeeded. -/
def goroutineError (infoR : Except ReqError MinifigInfo)
    (subsR : Except ReqError MinifigSubsets)
    (priceR : Except ReqError MinifigPrice) : Nat → Option WrappedError
  | 0 =>
    match infoR with
    | .error e => some (.infoErr e)
    | .ok _ => none
  | 1 =>
    match subsR with
    | .error e => some (.subsetsErr e)
    | .ok _ => none
  | 2 =>
    match priceR with
    | .error e => some (.priceErr e)
    | .ok _ => none
  | _ + 3 => none

/-- `GetMinifigComplete`, translated from the source.  The three sub-fetch
outcomes are inputs (each goroutine's call result); `order` is the order in
which the errgroup observes the goroutines finish — `g.Wait()` returns the
error of the first goroutine in that order that failed, and a real
execution observes each of the three goroutines exactly once
(`order` is a permutation of `[0, 1, 2]`; the final catch-all branch is
unreachable for such orders).  On failure the source returns `nil, err`; on
success it fills `Info`, `Subsets`, `Price` and the wall-clock timings
(`tInfo`, `tSubs`, `tPrice`, `tTotal` stand for the measured durations). -/
def getMinifigComplete (infoR : Except ReqError MinifigInfo)
    (subsR : Except ReqError MinifigSubsets)
    (priceR : Except ReqError MinifigPrice) (order : List Nat)
    (tInfo tSubs tPrice tTotal : Int) : Except WrappedError MinifigComplete :=
  match order.findSome? (goroutineError infoR subsR priceR) with
  | some e => .error e
  | none =>
    match infoR, subsR, priceR with
    | .ok i, .ok s, .ok p =>
      .ok
        { info := some i
          subsets := s
          price := some p
          fetchTimeMs := tTotal
          individualFetchTimeMs :=
            [(goStr ("info"), tInfo), (goStr ("subsets"), tSubs),
              (goStr ("price"), tPrice)] }
    | _, _, _ => .error (.infoErr (.transportFailed (goStr ("unreachable"))))

/-- C8: if any of the three sub-fetches fails, `GetMinifigComplete` returns
the first error the executor observes (wrapped for its goroutine) and no
composite result at all — never a partially populated one. -/
theorem c8_aggregate_all_or_nothing (infoR : Except ReqError MinifigInfo)
    (subsR : Except ReqError MinifigSubsets)
    (priceR : Except ReqError MinifigPrice) (order : List Nat)
    (tInfo tSubs tPrice tTotal : Int) (horder : order.Perm [0, 1, 2])
    (hfail : infoR.isOk = false ∨ subsR.isOk = false ∨ priceR.isOk = false) :
    (∃ e, getMinifigComplete infoR subsR priceR order tInfo tSubs tPrice tTotal =
        .error e ∧
      order.findSome? (goroutineError infoR subsR priceR) = some e) ∧
    ∀ r, getMinifigComplete infoR subsR priceR order tInfo tSubs tPrice tTotal ≠
      .ok r := by
  have hsome : order.findSome? (goroutineError infoR subsR priceR) ≠ none := by
    intro hnone
    have hall := List.findSome?_eq_none_iff.mp hnone
    rcases hfail with hf | hf | hf
    · cases hi : infoR with
      | ok a => rw [hi] at hf; exact Bool.noConfusion hf
      | error e =>
        have h0 : (0 : Nat) ∈ order := horder.mem_iff.mpr (by decide)
        have := hall 0 h0
        rw [show goroutineError infoR subsR priceR 0 =
          some (.infoErr e) by rw [hi]; rfl] at this
        exact Option.noConfusion this
    · cases hi : subsR with
      | ok a => rw [hi] at hf; exact Bool.noConfusion hf
      | error e =>
        have h1 : (1 : Nat) ∈ order := horder.mem_iff.mpr (by decide)
        have := hall 1 h1
        rw [show goroutineError infoR subsR priceR 1 =
          some (.subsetsErr e) by rw [hi]; rfl] at this
        exact Option.noConfusion this
    · cases hi : priceR with
      | ok a => rw [hi] at hf; exact Bool.noConfusion hf
      | error e =>
        have h2 : (2 : Nat) ∈ order := horder.mem_iff.mpr (by decide)
        have := hall 2 h2
        rw [show goroutineError infoR subsR priceR 2 =
          some (.priceErr e) by rw [hi]; rfl] at this
        exact Option.noConfusion this
  cases hfs : order.findSome? (goroutineError infoR subsR priceR) with
  | none => exact absurd hfs hsome
  | some e =>
    constructor
    · refine ⟨e, ?_, rfl⟩
      unfold getMinifigComplete
      rw [hfs]
    · intro r
      unfold getMinifigComplete
      rw [hfs]
      exact fun hh => Except.noConfusion hh

/-- Concrete info payload used by witnesses. -/
def infoOkEx : MinifigInfo :=
  ⟨goStr ("sw0001a"), goStr ("Battle Droid"), goStr ("MINIFIG"), 771,
    goStr (""), goStr (""), goStr (""), goStr (""), goStr (""), goStr (""),
    1999, false⟩

/-- The price sub-fetch outcome when the remote answers 404: an
`apiError` carrying status and body. -/
def price404Ex : Except ReqError MinifigPrice :=
  getMinifigPrice credEx (goStr ("http://x")) (goStr ("sw0001a")) randEx 0
    (fun _ => .resp 404 (goStr ("nf"))) (fun _ => none)

/-- Witness for C8: the price sub-call sees HTTP 404 and is the first
completion the executor observes; the aggregate is not any `ok` result. -/
theorem c8_aggregate_all_or_nothing_witness :
    getMinifigComplete (.ok infoOkEx) (.ok []) price404Ex [2, 0, 1] 1 2 3 4 ≠
      .ok ⟨some infoOkEx, [], none, 4, []⟩ :=
  (c8_aggregate_all_or_nothing (.ok infoOkEx) (.ok []) price404Ex [2, 0, 1] 1 2 3 4
    (by decide) (Or.inr (Or.inr rfl))).2 _

/-- Outcome of a batch run that collects results.  Besides the `(results,
error)` pair of the Go signature, two further outcomes are reachable:
`make(chan struct{}, maxConcurrency)` panics for a negative capacity
("makechan: size out of range"), and for capacity 0 the semaphore channel
is unbuffered, so every `sem <- struct{}{}` blocks forever (the only
receives run after a successful send) and `g.Wait()` never returns. -/
inductive BatchOutcome (α : Type) where
  | ok (results : List α)
  | failed (e : GoStr)
  | panicked
  | deadlocked
deriving DecidableEq

/-- Outcome of a batch run that returns only an error. -/
inductive BatchErrOutcome where
  | ok
  | failed (e : GoStr)
  | panicked
  | deadlocked
deriving DecidableEq

/-- The first task error the errgroup observes: `order` is the order in
which goroutine completions are observed (indices into `items`); `g.Wait()`
returns the error of the first failed task in that order. -/
def firstTaskError {ι α : Type} (items : List ι) (op : ι → Except GoStr α)
    (order : List Nat) : Option GoStr :=
  order.findSome? (fun i =>
    match items[i]? with
    | some it =>
      match op it with
      | .error e => some e
      | .ok _ => none
    | none => none)

/-- `BaseRepository.BatchOperationWithResults`, translated from the source:
empty input short-circuits to an empty result slice before the semaphore is
created; otherwise the semaphore semantics decide between panic (negative
capacity), deadlock (zero capacity) and a real run.  `results` is pre-sized
to `len(items)` and slot `i` is written only by the goroutine of task `i`,
so a successful run returns the per-task results aligned by task index
(`none` marks a slot no goroutine wrote). -/
def batchOperationWithResults {ι α : Type} (items : List ι) (maxConcurrency : Int)
    (op : ι → Except GoStr α) (order : List Nat) : BatchOutcome (Option α) :=
  if items.isEmpty then .ok []
  else if maxConcurrency < 0 then .panicked
  else if maxConcurrency = 0 then .deadlocked
  else
    match firstTaskError items op order with
    | some e => .failed (goStr ("batch operation with results failed: ") ++ e)
    | none => .ok (items.map (fun it => (op it).toOption))

/-- `BaseRepository.BatchOperation`, translated from the source (the
result-free variant; `op` returns `some` error or `none`). -/
def batchOperation {ι : Type} (items : List ι) (maxConcurrency : Int)
    (op : ι → Option GoStr) (order : List Nat) : BatchErrOutcome :=
  if items.isEmpty then .ok
  else if maxConcurrency < 0 then .panicked
  else if maxConcurrency = 0 then .deadlocked
  else
    match order.findSome? (fun i => (items[i]?).bind op) with
    | some e => .failed (goStr ("batch operation failed: ") ++ e)
    | none => .ok

/-- `BaseRepository.ConcurrentFetch`, translated from the source: like
`BatchOperationWithResults` but over int64 ids, with each goroutine
wrapping its fetch error as `fmt.Errorf("failed to fetch item %d: %w")`
and the batch error returned unwrapped. -/
def concurrentFetch {α : Type} (ids : List Int) (maxConcurrency : Int)
    (fetchFn : Int → Except GoStr α) (order : List Nat) : BatchOutcome (Option α) :=
  if ids.isEmpty then .ok []
  else if maxConcurrency < 0 then .panicked
  else if maxConcurrency = 0 then .deadlocked
  else
    match firstTaskError ids
        (fun id =>
          match fetchFn id with
          | .error e =>
            .error (goStr ("failed to fetch item ") ++ goStr (toString id) ++
              goStr (": ") ++ e)
          | .ok a => .ok a) order with
    | some e => .failed e
    | none => .ok (ids.map (fun id => (fetchFn id).toOption))

/-- C6 counterexample: with a non-empty task list and `maxConcurrency = 0`
the executor deadlocks, and with a negative value it panics — it does not
return an invalid-argument error (nor any error). -/
theorem c6_invalid_concurrency_counterexample :
    batchOperationWithResults [0] 0 (fun n : Nat => Except.ok n) [0] =
        BatchOutcome.deadlocked ∧
      batchOperationWithResults [0] (-1) (fun n : Nat => Except.ok n) [0] =
        BatchOutcome.panicked ∧
      batchOperation [0] 0 (fun _ : Nat => none) [0] = BatchErrOutcome.deadlocked ∧
      batchOperation [0] (-1) (fun _ : Nat => none) [0] = BatchErrOutcome.panicked := by
  refine ⟨by decide, by decide, by decide, by decide⟩

/-- C6 amended: for every non-empty task list, `maxConcurrency < 0` makes
the batch executor panic at channel creation and `maxConcurrency = 0`
makes it block forever on the unbuffered semaphore; no invalid-argument
error is returned — the executor never validates `maxConcurrency`. -/
theorem c6_no_concurrency_validation {ι α : Type} (items : List ι) (mc : Int)
    (op : ι → Except GoStr α) (op2 : ι → Option GoStr) (order : List Nat)
    (hne : items ≠ []) :
    (mc < 0 →
      batchOperationWithResults items mc op order = .panicked ∧
        batchOperation items mc op2 order = .panicked) ∧
    (mc = 0 →
      batchOperationWithResults items mc op order = .deadlocked ∧
        batchOperation items mc op2 order = .deadlocked) := by
  have hemp : items.isEmpty = false := List.isEmpty_eq_false.mpr hne
  constructor
  · intro hmc
    constructor
    · unfold batchOperationWithResults
      rw [hemp]
      simp only [Bool.false_eq_true, if_false, if_pos hmc]
    · unfold batchOperation
      rw [hemp]
      simp only [Bool.false_eq_true, if_false, if_pos hmc]
  · intro hmc
    subst hmc
    constructor
    · unfold batchOperationWithResults
      rw [hemp]
      simp
    · unfold batchOperation
      rw [hemp]
      simp

/-- Witness for C6 (amended) at a concrete one-task list. -/
theorem c6_no_concurrency_validation_witness :
    batchOperationWithResults [7] (-5) (fun n : Nat => Except.ok n) [0] =
        BatchOutcome.panicked ∧
      batchOperation [7] 0 (fun _ : Nat => none) [0] = BatchErrOutcome.deadlocked :=
  ⟨((c6_no_concurrency_validation [7] (-5) (fun n : Nat => Except.ok n)
      (fun _ : Nat => none) [0] (by decide)).1 (by decide)).1,
    ((c6_no_concurrency_validation [7] 0 (fun n : Nat => Except.ok n)
      (fun _ : Nat => none) [0] (by decide)).2 rfl).2⟩

/-- C7: whenever the batch executor succeeds, the returned result sequence
has the same length as the input and the entry at index `i` is the one
produced by the task at input index `i` — results are aligned by task
index, never by completion order.  Both collecting executors
(`BatchOperationWithResults` and `ConcurrentFetch`) satisfy this. -/
theorem c7_results_indexed_by_task {ι α : Type} :
    (∀ (items : List ι) (mc : Int) (op : ι → Except GoStr α) (order : List Nat)
      (rs : List (Option α)),
      batchOperationWithResults items mc op order = .ok rs →
      rs.length = items.length ∧
        ∀ i : Nat, rs[i]? = (items[i]?).map (fun it => (op it).toOption)) ∧
    (∀ (ids : List Int) (mc : Int) (fetchFn : Int → Except GoStr α)
      (order : List Nat) (rs : List (Option α)),
      concurrentFetch ids mc fetchFn order = .ok rs →
      rs.length = ids.length ∧
        ∀ i : Nat, rs[i]? = (ids[i]?).map (fun id => (fetchFn id).toOption)) := by
  constructor
  · intro items mc op order rs h
    unfold batchOperationWithResults at h
    split at h
    · rename_i hemp
      have hit : items = [] := List.isEmpty_iff.mp hemp
      subst hit
      injection h with h2
      subst h2
      exact ⟨rfl, fun i => rfl⟩
    · split at h
      · cases h
      · split at h
        · cases h
        · split at h
          · cases h
          · injection h with h2
            subst h2
            refine ⟨List.length_map _ _, fun i => ?_⟩
            rw [List.getElem?_map]
  · intro ids mc fetchFn order rs h
    unfold concurrentFetch at h
    split at h
    · rename_i hemp
      have hit : ids = [] := List.isEmpty_iff.mp hemp
      subst hit
      injection h with h2
      subst h2
      exact ⟨rfl, fun i => rfl⟩
    · split at h
      · cases h
      · split at h
        · cases h
        · split at h
          · cases h
          · injection h with h2
            subst h2
            refine ⟨List.length_map _ _, fun i => ?_⟩
            rw [List.getElem?_map]

/-- A concrete task used by the C7 witness. -/
def opEx7 : Nat → Except GoStr Nat := fun n => Except.ok (n * 3)

/-- Witness for C7 at a concrete two-task batch. -/
theorem c7_results_indexed_by_task_witness :
    ([some 30, some 60] : List (Option Nat))[0]? =
      (([10, 20] : List Nat)[0]?).map (fun it => (opEx7 it).toOption) :=
  (c7_results_indexed_by_task.1 [10, 20] 2 opEx7 [0, 1] [some 30, some 60]
    (by decide)).2 0

/-- Result of `strconv.ParseFloat(s, 64)`: the parsed IEEE-754 value is
outside the scope of this development (no claim depends on float
arithmetic), so the parse is kept as an uninterpreted tag of its input
string.  `ParseFloat` never panics, and the source discards its error. -/
structure GoFloat where
  raw : GoStr
deriving DecidableEq

def parseFloatModel (s : GoStr) : GoFloat :=
  ⟨s⟩

structure Dimensions where
  weight : GoStr
  length : GoStr
  width : GoStr
  height : GoStr
deriving DecidableEq

structure MinifigBasicInfo where
  name : GoStr
  type : GoStr
  categoryID : Int
  yearReleased : Int
  isObsolete : Bool
  dimensions : Dimensions
deriving DecidableEq

structure ComponentPart where
  partNumber : GoStr
  partName : GoStr
  partType : GoStr
  colorID : Int
  quantity : Int
  isAlternate : Bool
  categoryID : Int
deriving DecidableEq

structure MinifigComponents where
  totalParts : Int
  parts : List ComponentPart
deriving DecidableEq

structure PriceSummary where
  minimum : GoFloat
  maximum : GoFloat
  average : GoFloat
  weightedAverage : GoFloat
deriving DecidableEq

structure AvailabilitySummary where
  totalListings : Int
  totalQuantity : Int
  withShipping : Int
  withoutShipping : Int
deriving DecidableEq

structure PriceBreakdownEntry where
  quantity : Int
  pricePerUnit : GoFloat
  shippingAvailable : Bool
deriving DecidableEq

structure MinifigMarketData where
  currency : GoStr
  condition : GoStr
  priceSummary : PriceSummary
  availability : AvailabilitySummary
  priceBreakdown : List PriceBreakdownEntry
deriving DecidableEq

structure MinifigImages where
  fullSize : GoStr
  thumbnail : GoStr
deriving DecidableEq

structure EndpointTimings where
  basicInfo : Int
  components : Int
  marketData : Int
deriving DecidableEq

structure ResponseMetadata where
  fetchedAt : GoStr
  totalFetchTimeMs : Int
  endpointTimings : EndpointTimings
  dataSources : List GoStr
deriving DecidableEq

structure MinifigCompleteResponse where
  minifigID : GoStr
  basicInfo : MinifigBasicInfo
  components : MinifigComponents
  market : MinifigMarketData
  images : MinifigImages
  metadata : ResponseMetadata
deriving DecidableEq

/-- The image-URL fix of `ToStructuredResponse`:
`if url != "" && url[:2] == "//" { url = "https:" + url }`.  Go's `&&`
short-circuits, so the empty string is untouched; on a non-empty string
the slice `url[:2]` panics (`none`) when the string is a single byte;
otherwise a `//` prefix gets `https:` prepended (47 is `/`). -/
def fixImageURL (s : GoStr) : Option GoStr :=
  if s = [] then some s
  else if s.length < 2 then none
  else if s.take 2 = [47, 47] then some (goStr ("https:") ++ s)
  else some s

/-- `MinifigComplete.ToStructuredResponse`, translated from the source.
`none` is a runtime panic: dereferencing a `nil` `Info` or `Price`
pointer, or slicing a one-byte image URL.  The panics occur in source
order: the `Info` fields are read first, then `Price`, then the two URL
fixes. -/
def toStructuredResponse (mc : MinifigComplete) : Option MinifigCompleteResponse :=
  match mc.info with
  | none => none
  | some info =>
    let basicInfo : MinifigBasicInfo :=
      { name := info.name
        type := info.type
        categoryID := info.categoryID
        yearReleased := info.yearReleased
        isObsolete := info.isObsolete
        dimensions :=
          { weight := info.weight, length := info.dimX, width := info.dimY,
            height := info.dimZ } }
    let parts : List ComponentPart :=
      mc.subsets.flatMap (fun g =>
        g.entries.map (fun entry =>
          { partNumber := entry.item.no
            partName := entry.item.name
            partType := entry.item.type
            colorID := entry.colorID
            quantity := entry.quantity
            isAlternate := entry.isAlternate
            categoryID := entry.item.categoryID }))
    let totalParts : Int :=
      mc.subsets.foldl (fun acc g =>
        g.entries.foldl (fun a e => a + e.quantity) acc) 0
    match mc.price with
    | none => none
    | some price =>
      let marketData : MinifigMarketData :=
        { currency := price.currencyCode
          condition := price.newOrUsed
          priceSummary :=
            { minimum := parseFloatModel price.minPrice
              maximum := parseFloatModel price.maxPrice
              average := parseFloatModel price.avgPrice
              weightedAverage := parseFloatModel price.qtyAvgPrice }
          availability :=
            { totalListings := price.unitQuantity
              totalQuantity := price.totalQuantity
              withShipping := (price.priceDetail.filter
                (fun d => d.shippingAvailable)).length
              withoutShipping := (price.priceDetail.filter
                (fun d => !d.shippingAvailable)).length }
          priceBreakdown := price.priceDetail.map (fun d =>
            { quantity := d.quantity
              pricePerUnit := parseFloatModel d.unitPrice
              shippingAvailable := d.shippingAvailable }) }
      match fixImageURL info.imageURL with
      | none => none
      | some imageURL =>
        match fixImageURL info.thumbnailURL with
        | none => none
        | some thumbnailURL =>
          some
            { minifigID := info.no
              basicInfo := basicInfo
              components := { totalParts := totalParts, parts := parts }
              market := marketData
              images := { fullSize := imageURL, thumbnail := thumbnailURL }
              metadata :=
                { fetchedAt := goStr (toString mc.fetchTimeMs)
                  totalFetchTimeMs := mc.fetchTimeMs
                  endpointTimings :=
                    { basicInfo :=
                        (List.lookup (goStr ("info")) mc.individualFetchTimeMs).getD 0
                      components :=
                        (List.lookup (goStr ("subsets")) mc.individualFetchTimeMs).getD 0
                      marketData :=
                        (List.lookup (goStr ("price")) mc.individualFetchTimeMs).getD 0 }
                  dataSources := [goStr ("Bricklink API v1")] } }

theorem fixImageURL_isSome {s : GoStr} (h : s = [] ∨ 2 ≤ s.length) :
    ∃ t, fixImageURL s = some t := by
  unfold fixImageURL
  rcases h with rfl | h2
  · exact ⟨[], rfl⟩
  · have hne : ¬s = [] := by
      intro hh
      rw [hh] at h2
      simp at h2
    have hlt : ¬s.length < 2 := by omega
    rw [if_neg hne, if_neg hlt]
    by_cases hc : s.take 2 = [47, 47]
    · exact ⟨_, by rw [if_pos hc]⟩
    · exact ⟨_, by rw [if_neg hc]⟩

/-- Concrete price payload used by witnesses. -/
def priceOkEx : MinifigPrice :=
  ⟨⟨goStr ("sw0001a"), goStr ("MINIFIG")⟩, goStr ("N"), goStr ("USD"),
    goStr ("1.0"), goStr ("2.0"), goStr ("1.5"), goStr ("1.4"), 3, 5, []⟩

def mcOkEx : MinifigComplete :=
  ⟨some infoOkEx, [], some priceOkEx, 4, []⟩

def mcNoInfoEx : MinifigComplete :=
  ⟨none, [], some priceOkEx, 4, []⟩

def mcNoPriceEx : MinifigComplete :=
  ⟨some infoOkEx, [], none, 4, []⟩

def mcShortImageEx : MinifigComplete :=
  ⟨some { infoOkEx with imageURL := [47] }, [], some priceOkEx, 4, []⟩

def mcShortThumbEx : MinifigComplete :=
  ⟨some { infoOkEx with thumbnailURL := [47] }, [], some priceOkEx, 4, []⟩

/-- C10: `ToStructuredResponse` terminates without panicking on every value
whose `Info` and `Price` pointers are non-nil and whose two image URLs are
each empty or at least two bytes long; and each of these four preconditions
is necessary — dropping any one admits an input that panics (a nil `Info`,
a nil `Price`, or a one-byte URL hitting the out-of-range slice
`url[:2]`). -/
theorem c10_structured_response_panic_conditions :
    (∀ (mc : MinifigComplete) (i : MinifigInfo) (p : MinifigPrice),
      mc.info = some i → mc.price = some p →
      (i.imageURL = [] ∨ 2 ≤ i.imageURL.length) →
      (i.thumbnailURL = [] ∨ 2 ≤ i.thumbnailURL.length) →
      ∃ r, toStructuredResponse mc = some r) ∧
    toStructuredResponse mcNoInfoEx = none ∧
    toStructuredResponse mcNoPriceEx = none ∧
    toStructuredResponse mcShortImageEx = none ∧
    toStructuredResponse mcShortThumbEx = none := by
  refine ⟨?_, rfl, rfl, rfl, rfl⟩
  intro mc i p h1 h2 h3 h4
  obtain ⟨img, himg⟩ := fixImageURL_isSome h3
  obtain ⟨thumb, hthumb⟩ := fixImageURL_isSome h4
  rcases mc with ⟨oinfo, subs, oprice, ft, itimes⟩
  obtain rfl : oinfo = some i := h1
  obtain rfl : oprice = some p := h2
  simp only [toStructuredResponse, himg, hthumb]
  exact ⟨_, rfl⟩

/-- Witness for C10 at a concrete, well-formed composite. -/
theorem c10_structured_response_panic_conditions_witness :
    (toStructuredResponse mcOkEx).isSome = true := by
  obtain ⟨r, hr⟩ := c10_structured_response_panic_conditions.1 mcOkEx infoOkEx
    priceOkEx rfl rfl (by decide) (by decide)
  rw [hr]
  rfl
